import Mathlib

/-!
Shallow embedding of the request-processing core of the `httpserver`
repository (`src/main.rs`): percent-codec, request-line parser, header
parsing, filesystem responder, response framing and the per-connection
loop. Strings are modelled as `List Char` (Rust `str` is a sequence of
Unicode scalar values) and bytes as `Nat` below 256.
-/

namespace HttpSrv

/-- Unicode White_Space property, as used by Rust `char::is_whitespace`. -/
def is_rust_whitespace (c : Char) : Bool :=
  let n := c.toNat
  n == 0x9 || n == 0xA || n == 0xB || n == 0xC || n == 0xD || n == 0x20 ||
  n == 0x85 || n == 0xA0 || n == 0x1680 || (0x2000 ≤ n && n ≤ 0x200A) ||
  n == 0x2028 || n == 0x2029 || n == 0x202F || n == 0x205F || n == 0x3000

/-- Drop leading Rust whitespace. -/
def trim_start : List Char → List Char
  | [] => []
  | c :: cs => if is_rust_whitespace c then trim_start cs else c :: cs

/-- Rust `str::trim`: drop whitespace at both ends. -/
def rust_trim (l : List Char) : List Char :=
  ((trim_start ((trim_start l).reverse)).reverse)

/-- Rust `str::split(" ")`: split on every single space, keeping empty
segments; yields at least one (possibly empty) segment. -/
def splitOnSpace : List Char → List (List Char)
  | [] => [[]]
  | c :: cs =>
    if c = ' ' then [] :: splitOnSpace cs
    else
      match splitOnSpace cs with
      | [] => [[c]]
      | g :: gs => (c :: g) :: gs

/-- Rust `str::split(": ")`: split on each non-overlapping leftmost
occurrence of the two-character separator, keeping empty segments. -/
def splitColonSpace : List Char → List (List Char)
  | [] => [[]]
  | ':' :: ' ' :: cs => [] :: splitColonSpace cs
  | c :: cs =>
    match splitColonSpace cs with
    | [] => [[c]]
    | g :: gs => (c :: g) :: gs

/-- `parse_request_line` from `main.rs`: take the first three tokens of
`line.split(" ")`, require that there is no fourth, and return the first
two (method and raw path). -/
def parse_request_line (line : List Char) : Option (List Char × List Char) :=
  match splitOnSpace line with
  | [method, path, _ver] => some (method, path)
  | _ => none

/-- `status_code_to_string` from `main.rs`; the wildcard arm panics,
modelled as `none`. -/
def status_code_to_string (code : Int) : Option (List Char) :=
  match code with
  | 200 => some (String.toList "OK")
  | 201 => some (String.toList "Created")
  | 202 => some (String.toList "Accepted")
  | 204 => some (String.toList "No Content")
  | 301 => some (String.toList "Moved Permanently")
  | 302 => some (String.toList "Found")
  | 304 => some (String.toList "Not Modified")
  | 400 => some (String.toList "Bad Request")
  | 401 => some (String.toList "Unauthorized")
  | 403 => some (String.toList "Forbidden")
  | 404 => some (String.toList "Not Found")
  | 405 => some (String.toList "Method Not Allowed")
  | 500 => some (String.toList "Internal Server Error")
  | 501 => some (String.toList "Not Implemented")
  | 502 => some (String.toList "Bad Gateway")
  | 503 => some (String.toList "Service Unavailable")
  | 504 => some (String.toList "Gateway Timeout")
  | _ => none

/-- The status codes that have an arm in `status_code_to_string`. -/
def known_codes : List Int :=
  [200, 201, 202, 204, 301, 302, 304, 400, 401, 403, 404, 405,
   500, 501, 502, 503, 504]

/-- Value of one hex digit, as accepted per byte by Rust
`u8::from_str_radix(_, 16)` (which uses `char::to_digit(16)`). -/
def hex_digit_val (c : Char) : Option Nat :=
  let n := c.toNat
  if 48 ≤ n ∧ n ≤ 57 then some (n - 48)
  else if 97 ≤ n ∧ n ≤ 102 then some (n - 87)
  else if 65 ≤ n ∧ n ≤ 70 then some (n - 55)
  else none

/-- Rust `u8::from_str_radix(s, 16)` on the two-character string `h1 h2`:
a leading ASCII `+` is accepted as a sign, otherwise both characters must
be hex digits (a multi-byte character never parses, and its
`hex_digit_val` is likewise `none`). -/
def hex_pair_val (h1 h2 : Char) : Option Nat :=
  if h1 = '+' then hex_digit_val h2
  else
    match hex_digit_val h1, hex_digit_val h2 with
    | some d1, some d2 => some (d1 * 16 + d2)
    | _, _ => none

/-- Rust `char::from_u32`: `none` exactly on surrogates and values above
0x10FFFF. -/
def char_from_u32 (n : Nat) : Option Char :=
  if n < 0xD800 ∨ (0xDFFF < n ∧ n < 0x110000) then some (Char.ofNat n) else none

/-- UTF-8 encoding of one Unicode scalar value (Rust `char::encode_utf8`). -/
def utf8_encode_char (n : Nat) : List Nat :=
  if n < 0x80 then [n]
  else if n < 0x800 then [0xC0 + n / 64, 0x80 + n % 64]
  else if n < 0x10000 then
    [0xE0 + n / 4096, 0x80 + n / 64 % 64, 0x80 + n % 64]
  else
    [0xF0 + n / 262144, 0x80 + n / 4096 % 64, 0x80 + n / 64 % 64, 0x80 + n % 64]

mutual

/-- Rust `str::from_utf8` composed with reading the characters off the
resulting string: `some` exactly on valid UTF-8 (continuations in
0x80..0xBF, no overlong forms, no surrogates, at most U+10FFFF). -/
def utf8_decode : List Nat → Option (List Char)
  | [] => some []
  | b1 :: rest =>
    if b1 < 0x80 then (utf8_decode rest).map (fun s => Char.ofNat b1 :: s)
    else if b1 < 0xC2 then none
    else if b1 < 0xE0 then utf8_cont2 b1 rest
    else if b1 < 0xF0 then utf8_cont3 b1 rest
    else if b1 < 0xF5 then utf8_cont4 b1 rest
    else none

/-- Continuation byte of a two-byte UTF-8 sequence led by `b1`. -/
def utf8_cont2 (b1 : Nat) : List Nat → Option (List Char)
  | b2 :: rest2 =>
    if 0x80 ≤ b2 ∧ b2 < 0xC0 then
      (utf8_decode rest2).map
        (fun s => Char.ofNat ((b1 - 0xC0) * 64 + (b2 - 0x80)) :: s)
    else none
  | [] => none

/-- Continuation bytes of a three-byte UTF-8 sequence led by `b1`; the
second byte's window depends on the lead (no overlongs, no surrogates). -/
def utf8_cont3 (b1 : Nat) : List Nat → Option (List Char)
  | b2 :: b3 :: rest3 =>
    if (if b1 = 0xE0 then 0xA0 ≤ b2 ∧ b2 < 0xC0
        else if b1 = 0xED then 0x80 ≤ b2 ∧ b2 < 0xA0
        else 0x80 ≤ b2 ∧ b2 < 0xC0) ∧ 0x80 ≤ b3 ∧ b3 < 0xC0 then
      (utf8_decode rest3).map
        (fun s =>
          Char.ofNat ((b1 - 0xE0) * 4096 + (b2 - 0x80) * 64 + (b3 - 0x80)) :: s)
    else none
  | _ => none

/-- Continuation bytes of a four-byte UTF-8 sequence led by `b1`; the
second byte's window depends on the lead (no overlongs, at most U+10FFFF). -/
def utf8_cont4 (b1 : Nat) : List Nat → Option (List Char)
  | b2 :: b3 :: b4 :: rest4 =>
    if (if b1 = 0xF0 then 0x90 ≤ b2 ∧ b2 < 0xC0
        else if b1 = 0xF4 then 0x80 ≤ b2 ∧ b2 < 0x90
        else 0x80 ≤ b2 ∧ b2 < 0xC0) ∧
       0x80 ≤ b3 ∧ b3 < 0xC0 ∧ 0x80 ≤ b4 ∧ b4 < 0xC0 then
      (utf8_decode rest4).map
        (fun s =>
          Char.ofNat ((b1 - 0xF0) * 262144 + (b2 - 0x80) * 4096 +
            (b3 - 0x80) * 64 + (b4 - 0x80)) :: s)
    else none
  | _ => none

end

/-- Uppercase hex digit, as produced by Rust `format!("{:X}")`. -/
def hex_digit_upper (d : Nat) : Char :=
  if d < 10 then Char.ofNat (48 + d) else Char.ofNat (55 + d)

/-- Rust `format!("{b:X}")` for a byte `b`: uppercase hex with no zero
padding (one digit for values below 16). -/
def byte_to_hex_upper (b : Nat) : List Char :=
  if b < 16 then [hex_digit_upper b]
  else [hex_digit_upper (b / 16), hex_digit_upper (b % 16)]

/-- The pass-through test of `encode_url`: ASCII alphanumeric or one of
`-`, `_`, `.`, `~`. -/
def is_pass (c : Char) : Bool :=
  let n := c.toNat
  (n < 128) &&
  ((65 ≤ n && n ≤ 90) || (97 ≤ n && n ≤ 122) || (48 ≤ n && n ≤ 57) ||
   c = '-' || c = '_' || c = '.' || c = '~')

/-- Encoding of a single character in `encode_url`: pass it through, or
emit one `%` triplet (with unpadded hex) per UTF-8 byte. -/
def encode_char (c : Char) : List Char :=
  if is_pass c then [c]
  else ((utf8_encode_char c.toNat).map (fun b => '%' :: byte_to_hex_upper b)).flatten

/-- `encode_url` from `main.rs`. -/
def encode_url : List Char → List Char
  | [] => []
  | c :: cs => encode_char c ++ encode_url cs

mutual

/-- `decode_url` from `main.rs`. On `%`, read two characters as a hex
byte; a byte below 127 is pushed directly (through `char::from_u32`);
otherwise the multi-byte accumulation loop starts, whose
validity-check-at-loop-head for the first byte is inlined here. -/
def decode_url : List Char → Option (List Char)
  | [] => some []
  | c :: cs =>
    if c = '%' then
      match cs with
      | h1 :: h2 :: rest =>
        match hex_pair_val h1 h2 with
        | some b =>
          if b < 127 then
            match char_from_u32 b with
            | some ch => (decode_url rest).map (fun out => ch :: out)
            | none => none
          else
            match utf8_decode [b] with
            | some s => (decode_url rest).map (fun out => s ++ out)
            | none => accumulate [b] rest
        | none => none
      | _ => none
    else (decode_url cs).map (fun out => c :: out)

/-- The inner accumulation loop of `decode_url`, entered with the bytes
collected so far not yet valid UTF-8: the next character must be `%`,
two more characters are read as a hex byte, and the extended byte list is
retried as UTF-8; on success the outer loop resumes on the remainder. -/
def accumulate (cps : List Nat) : List Char → Option (List Char)
  | next :: h1 :: h2 :: rest =>
    if next = '%' then
      match hex_pair_val h1 h2 with
      | some b =>
        match utf8_decode (cps ++ [b]) with
        | some s => (decode_url rest).map (fun out => s ++ out)
        | none => accumulate (cps ++ [b]) rest
      | none => none
    else none
  | _ => none

end

/-- UTF-8 bytes of a string (Rust `String::into_bytes` / `str::as_bytes`). -/
def str_bytes (s : List Char) : List Nat :=
  (s.map (fun c => utf8_encode_char c.toNat)).flatten

/-- Outcome kind of a filesystem call, as distinguished by
`handle_client`: `io::ErrorKind::NotFound` versus every other error. -/
inductive IoErr where
  | notFound : IoErr
  | other : IoErr
deriving DecidableEq

/-- Abstract filesystem state: the three calls `gen_fs_page` makes.
`metadata` yields `is_dir`, `read_dir` the entry names in enumeration
order, `read` the raw bytes of a non-directory. -/
structure Fs where
  metadata : List Char → Except IoErr Bool
  read_dir : List Char → Except IoErr (List (List Char))
  read : List Char → Except IoErr (List Nat)

/-- Rust `str::ends_with("/")`. -/
def ends_with_slash (l : List Char) : Bool :=
  match l.getLast? with
  | some '/' => true
  | _ => false

/-- One `<li>` line of the directory listing in `gen_fs_page`: link target
is the slash-terminated directory path plus the percent-encoded entry
name, link text is the raw entry name. -/
def dir_item (path name : List Char) : List Char :=
  let pathname :=
    (if ends_with_slash path then path else path ++ ['/']) ++ encode_url name
  String.toList "<li><a href=\"" ++ pathname ++ String.toList "\">" ++
    name ++ String.toList "</a></li>"

/-- `gen_fs_page` from `main.rs`: metadata lookup, then either the HTML
directory listing or the raw file bytes. -/
def gen_fs_page (fs : Fs) (path : List Char) : Except IoErr (List Nat) :=
  match fs.metadata path with
  | Except.error e => Except.error e
  | Except.ok isDir =>
    if isDir then
      match fs.read_dir path with
      | Except.error e => Except.error e
      | Except.ok entries =>
        let body := entries.foldl (fun acc name => acc ++ dir_item path name)
          (String.toList "<html><meta charset=\"utf-8\" /><body><ul>")
        Except.ok (str_bytes (body ++ String.toList "</ul></body></html>"))
    else fs.read path

/-- Body of `write_bad_reply`. -/
def bad_reply_body : List Nat := str_bytes (String.toList "<html>bad requests</html>")

/-- The reply the dispatch arm of `handle_client` writes for a decoded
path: 200 with the produced bytes, 404 or 500 with the fixed bodies. -/
def dispatch_reply (fs : Fs) (path : List Char) : Int × List Nat :=
  match gen_fs_page fs path with
  | Except.ok content => (200, content)
  | Except.error IoErr.notFound => (404, str_bytes (String.toList "<html>404</html>"))
  | Except.error IoErr.other => (500, str_bytes (String.toList "<html>500</html>"))

/-- Header map, modelled as an association list with last-write-wins
insertion (the observable content of the Rust `HashMap`). -/
def Headers : Type := List (List Char × List Char)

instance : DecidableEq Headers := by
  unfold Headers
  infer_instance

/-- `HashMap::insert`: overwrite any earlier binding of the same key. -/
def insert_header (m : Headers) (k v : List Char) : Headers :=
  (m.filter (fun kv => decide (kv.1 ≠ k))) ++ [(k, v)]

/-- Result of the header-reading loop of `handle_client` on a list of
input lines: end-of-stream mid-headers, a line that does not split on
`": "` into exactly two parts, or the finished map together with the
input lines remaining after the blank terminator. -/
inductive HeaderScan where
  | eof : HeaderScan
  | badLine : HeaderScan
  | done : Headers → List (List Char) → HeaderScan
deriving DecidableEq

/-- The header-reading loop of `handle_client`, as a pure scan over the
remaining input lines (a returned line of length 0 is EOF). -/
def header_scan : List (List Char) → Headers → HeaderScan
  | [], _ => HeaderScan.eof
  | l :: rest, hs =>
    if l.length = 0 then HeaderScan.eof
    else if (rust_trim l).length = 0 then HeaderScan.done hs rest
    else
      match splitColonSpace (rust_trim l) with
      | [k, v] => header_scan rest (insert_header hs (rust_trim k) (rust_trim v))
      | _ => HeaderScan.badLine

mutual

/-- The request loop of `handle_client`, over the list of lines the
buffered reader yields (EOF once exhausted, or on a line of length 0,
mirroring `read_line` returning 0). The result is the list of replies
written on the stream, each as status code and body bytes. -/
def handle_client (fs : Fs) : List (List Char) → List (Int × List Nat)
  | [] => []
  | buffer :: rest =>
    if buffer.length = 0 then []
    else
      match parse_request_line (rust_trim buffer) with
      | none => []
      | some (_method, rawPath) =>
        match decode_url rawPath with
        | none => []
        | some path => read_headers fs path [] rest

/-- The header loop inside `handle_client`: on the blank terminator,
dispatch on the decoded path and continue the request loop; on a
malformed line, write the `write_bad_reply` 500 and stop; on EOF, stop
with no reply. -/
def read_headers (fs : Fs) (path : List Char) (hs : Headers) :
    List (List Char) → List (Int × List Nat)
  | [] => []
  | l :: rest =>
    if l.length = 0 then []
    else if (rust_trim l).length = 0 then dispatch_reply fs path :: handle_client fs rest
    else
      match splitColonSpace (rust_trim l) with
      | [k, v] => read_headers fs path (insert_header hs (rust_trim k) (rust_trim v)) rest
      | _ => [(500, bad_reply_body)]

end

/-- Decimal digits of a natural number (Rust `format!("{}")`). -/
def nat_dec (n : Nat) : List Char := Nat.toDigits 10 n

/-- Decimal rendering of an `i32` (Rust `format!("{}")`). -/
def int_dec (i : Int) : List Char :=
  match i with
  | Int.ofNat n => nat_dec n
  | Int.negSucc n => '-' :: nat_dec (n + 1)

/-- The bytes `write_reply` puts on the stream: status line,
`Content-Length` header, blank line, body. `none` models the panic on an
unknown status code. -/
def write_reply_bytes (code : Int) (content : List Nat) : Option (List Nat) :=
  (status_code_to_string code).map (fun reason =>
    str_bytes (String.toList "HTTP/1.1 " ++ int_dec code ++ [' '] ++ reason ++
      String.toList "\r\nContent-Length: " ++ nat_dec content.length ++
      String.toList "\r\n\r\n") ++ content)

/-- Total bytes written for a list of replies. -/
def replies_bytes (rs : List (Int × List Nat)) : List Nat :=
  (rs.map (fun r => (write_reply_bytes r.1 r.2).getD [])).flatten

/-- Concrete filesystem fixture: a single regular file `/f` with bytes
`hi`, everything else missing. -/
def fs_file : Fs where
  metadata p := if p = String.toList "/f" then Except.ok false else Except.error IoErr.notFound
  read_dir _ := Except.error IoErr.notFound
  read p := if p = String.toList "/f" then Except.ok [104, 105] else Except.error IoErr.notFound

/-- Concrete filesystem fixture: every lookup fails with `NotFound`. -/
def fs_empty : Fs where
  metadata _ := Except.error IoErr.notFound
  read_dir _ := Except.error IoErr.notFound
  read _ := Except.error IoErr.notFound

/-- Concrete filesystem fixture: every lookup fails with a non-`NotFound`
error (for example permission denied). -/
def fs_denied : Fs where
  metadata _ := Except.error IoErr.other
  read_dir _ := Except.error IoErr.other
  read _ := Except.error IoErr.other

example : decode_url (String.toList "%E4%B8%AD") = some (String.toList "中") := by decide
example : decode_url (String.toList "%") = none := by decide
example : decode_url (String.toList "%G1") = none := by decide
example : decode_url (String.toList "abc%20d") = some (String.toList "abc d") := by decide
example : encode_url (String.toList "a b") = String.toList "a%20b" := by decide
example : encode_url (String.toList "中") = String.toList "%E4%B8%AD" := by decide
example : encode_url [Char.ofNat 10] = String.toList "%A" := by decide
example : decode_url (String.toList "%A") = none := by decide
example : parse_request_line (String.toList "GET /a/b HTTP/1.1") =
    some (String.toList "GET", String.toList "/a/b") := by decide

theorem char_valid_nat (c : Char) :
    c.toNat < 0xD800 ∨ (0xDFFF < c.toNat ∧ c.toNat < 0x110000) := by
  rcases c.valid with h | ⟨h1, h2⟩
  · exact Or.inl h
  · exact Or.inr ⟨h1, h2⟩

theorem hex_digit_upper_val (d : Nat) (h : d < 16) :
    hex_digit_val (hex_digit_upper d) = some d := by
  interval_cases d <;> decide

theorem hex_digit_upper_ne_plus (d : Nat) (h : d < 16) : hex_digit_upper d ≠ '+' := by
  interval_cases d <;> decide

theorem hex_pair_val_roundtrip (b : Nat) (h16 : 16 ≤ b) (h256 : b < 256) :
    hex_pair_val (hex_digit_upper (b / 16)) (hex_digit_upper (b % 16)) = some b := by
  have hd1 : b / 16 < 16 := by omega
  have hd2 : b % 16 < 16 := by omega
  unfold hex_pair_val
  rw [if_neg (hex_digit_upper_ne_plus _ hd1), hex_digit_upper_val _ hd1,
    hex_digit_upper_val _ hd2]
  have : b / 16 * 16 + b % 16 = b := by omega
  simp [this]

theorem byte_to_hex_upper_two (b : Nat) (h : 16 ≤ b) :
    byte_to_hex_upper b = [hex_digit_upper (b / 16), hex_digit_upper (b % 16)] := by
  unfold byte_to_hex_upper
  rw [if_neg (by omega)]

theorem utf8_encode_char_one (n : Nat) (h : n < 0x80) : utf8_encode_char n = [n] := by
  unfold utf8_encode_char
  rw [if_pos h]

theorem utf8_encode_char_two (n : Nat) (h1 : 0x80 ≤ n) (h2 : n < 0x800) :
    utf8_encode_char n = [0xC0 + n / 64, 0x80 + n % 64] := by
  unfold utf8_encode_char
  rw [if_neg (by omega), if_pos h2]

theorem utf8_encode_char_three (n : Nat) (h1 : 0x800 ≤ n) (h2 : n < 0x10000) :
    utf8_encode_char n = [0xE0 + n / 4096, 0x80 + n / 64 % 64, 0x80 + n % 64] := by
  unfold utf8_encode_char
  rw [if_neg (by omega), if_neg (by omega), if_pos h2]

theorem utf8_encode_char_four (n : Nat) (h1 : 0x10000 ≤ n) :
    utf8_encode_char n =
      [0xF0 + n / 262144, 0x80 + n / 4096 % 64, 0x80 + n / 64 % 64, 0x80 + n % 64] := by
  unfold utf8_encode_char
  rw [if_neg (by omega), if_neg (by omega), if_neg (by omega)]

theorem utf8_decode_one_none (b : Nat) (h1 : 0xC2 ≤ b) (h2 : b < 0xF5) :
    utf8_decode [b] = none := by
  unfold utf8_decode
  rw [if_neg (by omega), if_neg (by omega)]
  split_ifs <;> rfl

theorem utf8_decode_two_none (b1 b2 : Nat) (h1 : 0xE0 ≤ b1) (h2 : b1 < 0xF5) :
    utf8_decode [b1, b2] = none := by
  unfold utf8_decode
  rw [if_neg (by omega), if_neg (by omega), if_neg (by omega)]
  split_ifs <;> rfl

theorem utf8_decode_three_none (b1 b2 b3 : Nat) (h1 : 0xF0 ≤ b1) (h2 : b1 < 0xF5) :
    utf8_decode [b1, b2, b3] = none := by
  unfold utf8_decode
  rw [if_neg (by omega), if_neg (by omega), if_neg (by omega), if_neg (by omega),
    if_pos (by omega)]
  rfl

theorem utf8_decode_encode2 (n : Nat) (h1 : 0x80 ≤ n) (h2 : n < 0x800) :
    utf8_decode [0xC0 + n / 64, 0x80 + n % 64] = some [Char.ofNat n] := by
  unfold utf8_decode
  rw [if_neg (by omega), if_neg (by omega), if_pos (by omega)]
  unfold utf8_cont2
  rw [if_pos (by omega)]
  simp [utf8_decode]
  congr 1
  omega

theorem utf8_decode_encode3 (n : Nat) (h1 : 0x800 ≤ n) (h2 : n < 0x10000)
    (hs : n < 0xD800 ∨ 0xDFFF < n) :
    utf8_decode [0xE0 + n / 4096, 0x80 + n / 64 % 64, 0x80 + n % 64] =
      some [Char.ofNat n] := by
  unfold utf8_decode
  rw [if_neg (by omega), if_neg (by omega), if_neg (by omega), if_pos (by omega)]
  unfold utf8_cont3
  rw [if_pos ?hcond]
  case hcond =>
    refine ⟨?_, by omega, by omega⟩
    split_ifs <;> omega
  simp [utf8_decode]
  congr 1
  omega

theorem utf8_decode_encode4 (n : Nat) (h1 : 0x10000 ≤ n) (h2 : n < 0x110000) :
    utf8_decode [0xF0 + n / 262144, 0x80 + n / 4096 % 64, 0x80 + n / 64 % 64,
      0x80 + n % 64] = some [Char.ofNat n] := by
  unfold utf8_decode
  rw [if_neg (by omega), if_neg (by omega), if_neg (by omega), if_neg (by omega),
    if_pos (by omega)]
  unfold utf8_cont4
  rw [if_pos ?hcond]
  case hcond =>
    refine ⟨?_, by omega, by omega, by omega, by omega⟩
    split_ifs <;> omega
  simp [utf8_decode]
  congr 1
  omega

theorem is_pass_ne_percent (c : Char) (h : is_pass c = true) : c ≠ '%' := by
  intro he
  subst he
  exact absurd h (by decide)

theorem decode_url_not_pct (c : Char) (hne : c ≠ '%') (tail : List Char) :
    decode_url (c :: tail) = (decode_url tail).map (fun out => c :: out) := by
  cases tail with
  | nil => simp [decode_url, hne]
  | cons a l =>
    cases l with
    | nil => simp [decode_url, hne]
    | cons a2 l2 => simp [decode_url, hne]

theorem decode_pct (b : Nat) (h16 : 16 ≤ b) (h256 : b < 256) (tail : List Char) :
    decode_url ('%' :: (byte_to_hex_upper b ++ tail)) =
      (if b < 127 then (decode_url tail).map (fun out => Char.ofNat b :: out)
       else
         match utf8_decode [b] with
         | some s => (decode_url tail).map (fun out => s ++ out)
         | none => accumulate [b] tail) := by
  rw [byte_to_hex_upper_two b h16]
  simp only [List.cons_append, List.nil_append]
  simp only [decode_url, hex_pair_val_roundtrip b h16 h256]
  by_cases hb : b < 127
  · rw [if_pos hb]
    unfold char_from_u32
    rw [if_pos (Or.inl (by omega))]
    rw [if_pos trivial]
    rw [if_pos hb]
  · rw [if_neg hb]
    rw [if_pos trivial]
    rw [if_neg hb]

theorem accumulate_pct (cps : List Nat) (b : Nat) (h16 : 16 ≤ b) (h256 : b < 256)
    (tail : List Char) :
    accumulate cps ('%' :: (byte_to_hex_upper b ++ tail)) =
      (match utf8_decode (cps ++ [b]) with
       | some s => (decode_url tail).map (fun out => s ++ out)
       | none => accumulate (cps ++ [b]) tail) := by
  rw [byte_to_hex_upper_two b h16]
  simp only [List.cons_append, List.nil_append]
  simp only [accumulate, hex_pair_val_roundtrip b h16 h256]
  rw [if_pos trivial]

theorem decode_encode_char (c : Char) (hc : 16 ≤ c.toNat) (rest : List Char) :
    decode_url (encode_char c ++ rest) = (decode_url rest).map (fun out => c :: out) := by
  by_cases hp : is_pass c = true
  · have hne : c ≠ '%' := is_pass_ne_percent c hp
    rw [show encode_char c = [c] from by unfold encode_char; rw [if_pos hp]]
    simp only [List.cons_append, List.nil_append]
    rw [decode_url_not_pct c hne rest]
  · have hn := char_valid_nat c
    rw [show encode_char c =
        ((utf8_encode_char c.toNat).map (fun b => '%' :: byte_to_hex_upper b)).flatten from by
      unfold encode_char; rw [if_neg hp]]
    by_cases h1 : c.toNat < 0x80
    · rw [utf8_encode_char_one c.toNat h1]
      simp only [List.map_cons, List.map_nil, List.flatten_cons, List.flatten_nil,
        List.append_nil, List.append_assoc, List.cons_append]
      rw [decode_pct c.toNat hc (by omega)]
      by_cases h127 : c.toNat < 127
      · rw [if_pos h127, Char.ofNat_toNat]
      · have he : c.toNat = 127 := by omega
        rw [if_neg h127, he]
        have hd : utf8_decode [127] = some [Char.ofNat 127] := by decide
        rw [hd]
        rw [show (127 : Nat) = c.toNat from he.symm, Char.ofNat_toNat]
        simp
    · by_cases h2 : c.toNat < 0x800
      · rw [utf8_encode_char_two c.toNat (by omega) h2]
        simp only [List.map_cons, List.map_nil, List.flatten_cons, List.flatten_nil,
          List.append_nil, List.append_assoc, List.cons_append]
        rw [decode_pct (0xC0 + c.toNat / 64) (by omega) (by omega)]
        rw [if_neg (by omega)]
        rw [utf8_decode_one_none _ (by omega) (by omega)]
        rw [accumulate_pct [0xC0 + c.toNat / 64] (0x80 + c.toNat % 64) (by omega) (by omega)]
        simp only [List.cons_append, List.nil_append]
        rw [utf8_decode_encode2 c.toNat (by omega) h2, Char.ofNat_toNat]
        simp
      · by_cases h3 : c.toNat < 0x10000
        · rw [utf8_encode_char_three c.toNat (by omega) h3]
          simp only [List.map_cons, List.map_nil, List.flatten_cons, List.flatten_nil,
            List.append_nil, List.append_assoc, List.cons_append]
          rw [decode_pct (0xE0 + c.toNat / 4096) (by omega) (by omega)]
          rw [if_neg (by omega)]
          rw [utf8_decode_one_none _ (by omega) (by omega)]
          rw [accumulate_pct [0xE0 + c.toNat / 4096] (0x80 + c.toNat / 64 % 64)
            (by omega) (by omega)]
          simp only [List.cons_append, List.nil_append]
          rw [utf8_decode_two_none _ _ (by omega) (by omega)]
          rw [accumulate_pct [0xE0 + c.toNat / 4096, 0x80 + c.toNat / 64 % 64]
            (0x80 + c.toNat % 64) (by omega) (by omega)]
          simp only [List.cons_append, List.nil_append]
          rw [utf8_decode_encode3 c.toNat (by omega) h3 (by omega), Char.ofNat_toNat]
          simp
        · rw [utf8_encode_char_four c.toNat (by omega)]
          simp only [List.map_cons, List.map_nil, List.flatten_cons, List.flatten_nil,
            List.append_nil, List.append_assoc, List.cons_append]
          rw [decode_pct (0xF0 + c.toNat / 262144) (by omega) (by omega)]
          rw [if_neg (by omega)]
          rw [utf8_decode_one_none _ (by omega) (by omega)]
          rw [accumulate_pct [0xF0 + c.toNat / 262144] (0x80 + c.toNat / 4096 % 64)
            (by omega) (by omega)]
          simp only [List.cons_append, List.nil_append]
          rw [utf8_decode_two_none _ _ (by omega) (by omega)]
          rw [accumulate_pct [0xF0 + c.toNat / 262144, 0x80 + c.toNat / 4096 % 64]
            (0x80 + c.toNat / 64 % 64) (by omega) (by omega)]
          simp only [List.cons_append, List.nil_append]
          rw [utf8_decode_three_none _ _ _ (by omega) (by omega)]
          rw [accumulate_pct [0xF0 + c.toNat / 262144, 0x80 + c.toNat / 4096 % 64,
            0x80 + c.toNat / 64 % 64] (0x80 + c.toNat % 64) (by omega) (by omega)]
          simp only [List.cons_append, List.nil_append]
          rw [utf8_decode_encode4 c.toNat (by omega) (by omega), Char.ofNat_toNat]
          simp

theorem decode_encode (s : List Char) (h : ∀ c ∈ s, 16 ≤ c.toNat) :
    decode_url (encode_url s) = some s := by
  induction s with
  | nil => rfl
  | cons c cs ih =>
    simp only [encode_url]
    rw [decode_encode_char c (h c (by simp)) (encode_url cs),
      ih (fun x hx => h x (by simp [hx]))]
    rfl

theorem read_headers_scan (fs : Fs) (path : List Char) :
    ∀ (input : List (List Char)) (hs : Headers),
      read_headers fs path hs input =
        (match header_scan input hs with
         | HeaderScan.eof => []
         | HeaderScan.badLine => [(500, bad_reply_body)]
         | HeaderScan.done _ rest => dispatch_reply fs path :: handle_client fs rest) := by
  intro input
  induction input with
  | nil => intro hs; rfl
  | cons l rest ih =>
    intro hs
    simp only [read_headers, header_scan]
    by_cases h0 : l.length = 0
    · rw [if_pos h0, if_pos h0]
    · rw [if_neg h0, if_neg h0]
      by_cases hb : (rust_trim l).length = 0
      · rw [if_pos hb, if_pos hb]
      · rw [if_neg hb, if_neg hb]
        rcases hsp : splitColonSpace (rust_trim l) with _ | ⟨k, _ | ⟨v, _ | ⟨w, t⟩⟩⟩
        · rfl
        · rfl
        · exact ih (insert_header hs (rust_trim k) (rust_trim v))
        · rfl

theorem handle_client_nil (fs : Fs) : handle_client fs [] = [] := rfl

theorem handle_client_eofline (fs : Fs) (buffer : List Char) (ls : List (List Char))
    (h0 : buffer.length = 0) : handle_client fs (buffer :: ls) = [] := by
  simp only [handle_client, if_pos h0]

theorem handle_client_badparse (fs : Fs) (buffer : List Char) (ls : List (List Char))
    (h0 : buffer.length ≠ 0) (h1 : parse_request_line (rust_trim buffer) = none) :
    handle_client fs (buffer :: ls) = [] := by
  simp only [handle_client, if_neg h0, h1]

theorem handle_client_baddecode (fs : Fs) (buffer : List Char) (ls : List (List Char))
    (m rawp : List Char) (h0 : buffer.length ≠ 0)
    (h1 : parse_request_line (rust_trim buffer) = some (m, rawp))
    (h2 : decode_url rawp = none) :
    handle_client fs (buffer :: ls) = [] := by
  simp only [handle_client, if_neg h0, h1, h2]

theorem handle_client_step (fs : Fs) (buffer : List Char) (ls : List (List Char))
    (m rawp path : List Char) (hs : Headers) (rest : List (List Char))
    (h0 : buffer.length ≠ 0)
    (h1 : parse_request_line (rust_trim buffer) = some (m, rawp))
    (h2 : decode_url rawp = some path)
    (h3 : header_scan ls [] = HeaderScan.done hs rest) :
    handle_client fs (buffer :: ls) = dispatch_reply fs path :: handle_client fs rest := by
  simp only [handle_client, if_neg h0, h1, h2]
  rw [read_headers_scan fs path ls [], h3]

theorem handle_client_badheader (fs : Fs) (buffer : List Char) (ls : List (List Char))
    (m rawp path : List Char) (h0 : buffer.length ≠ 0)
    (h1 : parse_request_line (rust_trim buffer) = some (m, rawp))
    (h2 : decode_url rawp = some path)
    (h3 : header_scan ls [] = HeaderScan.badLine) :
    handle_client fs (buffer :: ls) = [(500, bad_reply_body)] := by
  simp only [handle_client, if_neg h0, h1, h2]
  rw [read_headers_scan fs path ls [], h3]

theorem dispatch_reply_code (fs : Fs) (path : List Char) :
    (dispatch_reply fs path).1 = 200 ∨ (dispatch_reply fs path).1 = 404 ∨
      (dispatch_reply fs path).1 = 500 := by
  unfold dispatch_reply
  cases hg : gen_fs_page fs path with
  | error e => cases e <;> simp
  | ok c => simp

theorem handle_client_codes_aux :
    ∀ n : Nat, ∀ input : List (List Char), input.length ≤ n →
      (∀ (fs : Fs) (r : Int × List Nat), r ∈ handle_client fs input →
        r.1 = 200 ∨ r.1 = 404 ∨ r.1 = 500) ∧
      (∀ (fs : Fs) (path : List Char) (hs : Headers) (r : Int × List Nat),
        r ∈ read_headers fs path hs input →
        r.1 = 200 ∨ r.1 = 404 ∨ r.1 = 500) := by
  intro n
  induction n with
  | zero =>
    intro input hlen
    have hnil : input = [] := List.eq_nil_of_length_eq_zero (Nat.le_zero.mp hlen)
    subst hnil
    constructor
    · intro fs r hr
      simp [handle_client] at hr
    · intro fs path hs r hr
      simp [read_headers] at hr
  | succ n ih =>
    intro input hlen
    cases input with
    | nil =>
      constructor
      · intro fs r hr
        simp [handle_client] at hr
      · intro fs path hs r hr
        simp [read_headers] at hr
    | cons l rest =>
      have hlen' : rest.length ≤ n := by
        simp only [List.length_cons] at hlen
        omega
      constructor
      · intro fs r hr
        by_cases h0 : l.length = 0
        · rw [handle_client_eofline fs l rest h0] at hr
          simp at hr
        · rcases hp : parse_request_line (rust_trim l) with _ | ⟨m, rawp⟩
          · rw [handle_client_badparse fs l rest h0 hp] at hr
            simp at hr
          · rcases hd : decode_url rawp with _ | path
            · rw [handle_client_baddecode fs l rest m rawp h0 hp hd] at hr
              simp at hr
            · have hrw : handle_client fs (l :: rest) = read_headers fs path [] rest := by
                simp only [handle_client, if_neg h0, hp, hd]
              rw [hrw] at hr
              exact (ih rest hlen').2 fs path [] r hr
      · intro fs path hs r hr
        by_cases h0 : l.length = 0
        · have hrw : read_headers fs path hs (l :: rest) = [] := by
            simp only [read_headers, if_pos h0]
          rw [hrw] at hr
          simp at hr
        · by_cases hb : (rust_trim l).length = 0
          · have hrw : read_headers fs path hs (l :: rest) =
                dispatch_reply fs path :: handle_client fs rest := by
              simp only [read_headers, if_neg h0, if_pos hb]
            rw [hrw] at hr
            rcases List.mem_cons.mp hr with h | h
            · subst h
              exact dispatch_reply_code fs path
            · exact (ih rest hlen').1 fs r h
          · rcases hsp : splitColonSpace (rust_trim l) with _ | ⟨k, _ | ⟨v, _ | ⟨w, t⟩⟩⟩
            · have hrw : read_headers fs path hs (l :: rest) = [(500, bad_reply_body)] := by
                simp only [read_headers, if_neg h0, if_neg hb, hsp]
              rw [hrw] at hr
              simp at hr
              subst hr
              simp
            · have hrw : read_headers fs path hs (l :: rest) = [(500, bad_reply_body)] := by
                simp only [read_headers, if_neg h0, if_neg hb, hsp]
              rw [hrw] at hr
              simp at hr
              subst hr
              simp
            · have hrw : read_headers fs path hs (l :: rest) =
                  read_headers fs path (insert_header hs (rust_trim k) (rust_trim v)) rest := by
                simp only [read_headers, if_neg h0, if_neg hb, hsp]
              rw [hrw] at hr
              exact (ih rest hlen').2 fs path _ r hr
            · have hrw : read_headers fs path hs (l :: rest) = [(500, bad_reply_body)] := by
                simp only [read_headers, if_neg h0, if_neg hb, hsp]
              rw [hrw] at hr
              simp at hr
              subst hr
              simp

theorem status_code_unknown (code : Int) (h : code ∉ known_codes) :
    status_code_to_string code = none := by
  unfold status_code_to_string
  split
  all_goals simp_all [known_codes]

theorem parse_request_line_isSome (l : List Char) :
    (parse_request_line l).isSome = true ↔ (splitOnSpace l).length = 3 := by
  unfold parse_request_line
  rcases splitOnSpace l with _ | ⟨a, _ | ⟨b, _ | ⟨c, _ | ⟨d, t⟩⟩⟩⟩ <;> simp

theorem parse_request_line_three (l m p v : List Char)
    (h : splitOnSpace l = [m, p, v]) : parse_request_line l = some (m, p) := by
  unfold parse_request_line
  rw [h]

/-- C1 (counterexample): the round-trip fails on the one-character string
with code point 10: `encode_url` emits the unpadded triplet `%A`, which
`decode_url` cannot re-read (it always consumes two characters after `%`). -/
theorem claim1_counterexample :
    decode_url (encode_url [Char.ofNat 10]) ≠ some [Char.ofNat 10] := by decide

/-- C1 (amended): percent-decoding is a left inverse of percent-encoding
for every string all of whose characters have code point at least 0x10 —
for characters below U+0010 the encoder emits a single hex digit after
`%` and the round-trip fails. -/
theorem claim1_roundtrip_amended (s : List Char) (h : ∀ c ∈ s, 16 ≤ c.toNat) :
    decode_url (encode_url s) = some s :=
  decode_encode s h

/-- Witness for C1 at a concrete string mixing ASCII, reserved characters
and a multi-byte character. -/
theorem claim1_witness :
    (∀ c ∈ String.toList "a中-/%~ .b", 16 ≤ c.toNat) ∧
    decode_url (encode_url (String.toList "a中-/%~ .b")) =
      some (String.toList "a中-/%~ .b") :=
  ⟨by decide, claim1_roundtrip_amended (String.toList "a中-/%~ .b") (by decide)⟩

/-- C2: for a dispatched request, `gen_fs_page` success yields a 200 reply
with exactly the produced bytes, a `NotFound` failure a 404 reply with the
fixed body, any other failure a 500 reply with the fixed body, and in each
case the loop continues on the remaining input. -/
theorem claim2 (fs : Fs) (buffer : List Char) (ls : List (List Char))
    (m rawp path : List Char) (hs : Headers) (rest : List (List Char))
    (h0 : buffer.length ≠ 0)
    (h1 : parse_request_line (rust_trim buffer) = some (m, rawp))
    (h2 : decode_url rawp = some path)
    (h3 : header_scan ls [] = HeaderScan.done hs rest) :
    (∀ content, gen_fs_page fs path = Except.ok content →
      handle_client fs (buffer :: ls) = (200, content) :: handle_client fs rest) ∧
    (gen_fs_page fs path = Except.error IoErr.notFound →
      handle_client fs (buffer :: ls) =
        (404, str_bytes (String.toList "<html>404</html>")) :: handle_client fs rest) ∧
    (gen_fs_page fs path = Except.error IoErr.other →
      handle_client fs (buffer :: ls) =
        (500, str_bytes (String.toList "<html>500</html>")) :: handle_client fs rest) := by
  refine ⟨?_, ?_, ?_⟩
  · intro content hg
    rw [handle_client_step fs buffer ls m rawp path hs rest h0 h1 h2 h3]
    unfold dispatch_reply
    rw [hg]
  · intro hg
    rw [handle_client_step fs buffer ls m rawp path hs rest h0 h1 h2 h3]
    unfold dispatch_reply
    rw [hg]
  · intro hg
    rw [handle_client_step fs buffer ls m rawp path hs rest h0 h1 h2 h3]
    unfold dispatch_reply
    rw [hg]

/-- Witness for C2: the three dispatch outcomes on concrete filesystems. -/
theorem claim2_witness :
    handle_client fs_file [String.toList "GET /f HTTP/1.1\r\n", String.toList "\r\n"] =
      (200, [104, 105]) :: handle_client fs_file [] ∧
    handle_client fs_empty [String.toList "GET /f HTTP/1.1\r\n", String.toList "\r\n"] =
      (404, str_bytes (String.toList "<html>404</html>")) :: handle_client fs_empty [] ∧
    handle_client fs_denied [String.toList "GET /f HTTP/1.1\r\n", String.toList "\r\n"] =
      (500, str_bytes (String.toList "<html>500</html>")) :: handle_client fs_denied [] := by
  refine ⟨?_, ?_, ?_⟩
  · exact (claim2 fs_file (String.toList "GET /f HTTP/1.1\r\n") [String.toList "\r\n"]
      (String.toList "GET") (String.toList "/f") (String.toList "/f") [] []
      (by decide) (by decide) (by decide) (by decide)).1 [104, 105] rfl
  · exact (claim2 fs_empty (String.toList "GET /f HTTP/1.1\r\n") [String.toList "\r\n"]
      (String.toList "GET") (String.toList "/f") (String.toList "/f") [] []
      (by decide) (by decide) (by decide) (by decide)).2.1 rfl
  · exact (claim2 fs_denied (String.toList "GET /f HTTP/1.1\r\n") [String.toList "\r\n"]
      (String.toList "GET") (String.toList "/f") (String.toList "/f") [] []
      (by decide) (by decide) (by decide) (by decide)).2.2 rfl

/-- C3: a first read of zero bytes (EOF), a non-parseable request line, or
a failing percent-decode of the raw path each end the connection with no
reply written — zero replies and zero response bytes. -/
theorem claim3 (fs : Fs) (buffer : List Char) (ls : List (List Char)) (m rawp : List Char) :
    (handle_client fs [] = [] ∧ replies_bytes (handle_client fs []) = []) ∧
    (buffer.length = 0 → handle_client fs (buffer :: ls) = []) ∧
    (parse_request_line (rust_trim buffer) = none → handle_client fs (buffer :: ls) = []) ∧
    (parse_request_line (rust_trim buffer) = some (m, rawp) → decode_url rawp = none →
      handle_client fs (buffer :: ls) = []) ∧
    (handle_client fs (buffer :: ls) = [] →
      replies_bytes (handle_client fs (buffer :: ls)) = []) := by
  refine ⟨⟨rfl, rfl⟩, ?_, ?_, ?_, ?_⟩
  · intro h0
    exact handle_client_eofline fs buffer ls h0
  · intro h1
    by_cases h0 : buffer.length = 0
    · exact handle_client_eofline fs buffer ls h0
    · exact handle_client_badparse fs buffer ls h0 h1
  · intro h1 h2
    by_cases h0 : buffer.length = 0
    · exact handle_client_eofline fs buffer ls h0
    · exact handle_client_baddecode fs buffer ls m rawp h0 h1 h2
  · intro he
    rw [he]
    rfl

/-- Witness for C3: EOF line, two-token request line, and undecodable
path, each at a concrete input. -/
theorem claim3_witness :
    handle_client fs_empty [[]] = [] ∧
    handle_client fs_empty [String.toList "GET /\r\n"] = [] ∧
    handle_client fs_empty [String.toList "GET /%ZZ HTTP/1.1\r\n"] = [] ∧
    replies_bytes (handle_client fs_empty [String.toList "GET /\r\n"]) = [] := by
  refine ⟨?_, ?_, ?_, ?_⟩
  · exact (claim3 fs_empty [] [] [] []).2.1 (by decide)
  · exact (claim3 fs_empty (String.toList "GET /\r\n") [] [] []).2.2.1 (by decide)
  · exact (claim3 fs_empty (String.toList "GET /%ZZ HTTP/1.1\r\n") [] (String.toList "GET")
      (String.toList "/%ZZ")).2.2.2.1 (by decide) (by decide)
  · exact (claim3 fs_empty (String.toList "GET /\r\n") [] [] []).2.2.2.2
      ((claim3 fs_empty (String.toList "GET /\r\n") [] [] []).2.2.1 (by decide))

/-- C4: a header line that does not split on `": "` into exactly two parts
makes the loop write the fixed 500 bad-request reply and terminate the
connection (the output is exactly that one reply, whatever input remains);
a well-formed line is inserted into the map with name and value trimmed. -/
theorem claim4 (fs : Fs) (buffer : List Char) (ls : List (List Char))
    (m rawp path l k v : List Char) (hs : Headers) :
    (buffer.length ≠ 0 → parse_request_line (rust_trim buffer) = some (m, rawp) →
      decode_url rawp = some path → header_scan ls [] = HeaderScan.badLine →
      handle_client fs (buffer :: ls) = [(500, bad_reply_body)]) ∧
    (l.length ≠ 0 → (rust_trim l).length ≠ 0 → splitColonSpace (rust_trim l) = [k, v] →
      header_scan (l :: ls) hs = header_scan ls (insert_header hs (rust_trim k) (rust_trim v))) := by
  constructor
  · intro h0 h1 h2 h3
    exact handle_client_badheader fs buffer ls m rawp path h0 h1 h2 h3
  · intro hl0 hl1 hsp
    simp only [header_scan, if_neg hl0, if_neg hl1, hsp]

/-- Witness for C4: the line `Malformed` yields exactly the 500 reply even
though a further well-formed request follows, and `Host: example.com` is
inserted trimmed. -/
theorem claim4_witness :
    handle_client fs_empty [String.toList "GET / HTTP/1.1\r\n", String.toList "Malformed\r\n",
      String.toList "GET / HTTP/1.1\r\n", String.toList "\r\n"] = [(500, bad_reply_body)] ∧
    header_scan [String.toList "Host: example.com\r\n", String.toList "\r\n"] [] =
      header_scan [String.toList "\r\n"]
        (insert_header [] (String.toList "Host") (String.toList "example.com")) := by
  constructor
  · exact (claim4 fs_empty (String.toList "GET / HTTP/1.1\r\n")
      [String.toList "Malformed\r\n", String.toList "GET / HTTP/1.1\r\n", String.toList "\r\n"]
      (String.toList "GET") (String.toList "/") (String.toList "/") [] [] [] []).1
      (by decide) (by decide) (by decide) (by decide)
  · exact (claim4 fs_empty [] [String.toList "\r\n"] [] [] []
      (String.toList "Host: example.com\r\n") (String.toList "Host")
      (String.toList "example.com") []).2 (by decide) (by decide) (by decide)

/-- C5: `parse_request_line` succeeds exactly when the line splits on
single spaces into three tokens, with no validation of token content;
the given three-, two- and four-token examples behave as stated. -/
theorem claim5 :
    parse_request_line (String.toList "GET /a/b HTTP/1.1") =
      some (String.toList "GET", String.toList "/a/b") ∧
    parse_request_line (String.toList "GET /a/b") = none ∧
    parse_request_line (String.toList "GET /a/b HTTP/1.1 extra") = none ∧
    (∀ l : List Char, (parse_request_line l).isSome = true ↔ (splitOnSpace l).length = 3) ∧
    (∀ l m p v : List Char, splitOnSpace l = [m, p, v] → parse_request_line l = some (m, p)) :=
  ⟨by decide, by decide, by decide, parse_request_line_isSome, parse_request_line_three⟩

/-- Witness for C5: arbitrary three-token line parses with no content
validation. -/
theorem claim5_witness :
    parse_request_line (String.toList "FOO bar baz") =
      some (String.toList "FOO", String.toList "bar") :=
  claim5.2.2.2.2 (String.toList "FOO bar baz") (String.toList "FOO") (String.toList "bar")
    (String.toList "baz") (by decide)

/-- C6: `%E4%B8%AD` decodes to the single three-byte character by
accumulating consecutive `%XX` triplets until the bytes form valid UTF-8. -/
theorem claim6 :
    decode_url (String.toList "%E4%B8%AD") = some (String.toList "中") := by decide

/-- C7: `decode_url` returns no value (rather than failing abruptly) on a
truncated `%`, a non-hex pair, a non-`%` character where a continuation
triplet was expected, and byte sequences that never become valid UTF-8. -/
theorem claim7 :
    decode_url (String.toList "%") = none ∧
    decode_url (String.toList "%G1") = none ∧
    decode_url (String.toList "%E4ab") = none ∧
    decode_url (String.toList "%E4%B8") = none ∧
    decode_url (String.toList "%C0%80") = none ∧
    decode_url (String.toList "%FF%FF%FF%FF") = none := by decide

/-- C8: after one full request/response cycle the loop continues at the
next request line, so two well-formed requests on one connection get two
full, independent responses. -/
theorem claim8 (fs : Fs) (b1 : List Char) (ls1 : List (List Char)) (m1 r1 p1 : List Char)
    (hs1 : Headers) (b2 : List Char) (ls2 : List (List Char)) (m2 r2 p2 : List Char)
    (hs2 : Headers) (rest : List (List Char))
    (h01 : b1.length ≠ 0) (h11 : parse_request_line (rust_trim b1) = some (m1, r1))
    (h21 : decode_url r1 = some p1)
    (h31 : header_scan ls1 [] = HeaderScan.done hs1 (b2 :: ls2))
    (h02 : b2.length ≠ 0) (h12 : parse_request_line (rust_trim b2) = some (m2, r2))
    (h22 : decode_url r2 = some p2)
    (h32 : header_scan ls2 [] = HeaderScan.done hs2 rest) :
    handle_client fs (b1 :: ls1) =
      dispatch_reply fs p1 :: dispatch_reply fs p2 :: handle_client fs rest := by
  rw [handle_client_step fs b1 ls1 m1 r1 p1 hs1 (b2 :: ls2) h01 h11 h21 h31]
  rw [handle_client_step fs b2 ls2 m2 r2 p2 hs2 rest h02 h12 h22 h32]

/-- Witness for C8: two sequential requests on one connection, each fully
answered. -/
theorem claim8_witness :
    handle_client fs_file [String.toList "GET /f HTTP/1.1\r\n", String.toList "\r\n",
      String.toList "GET /x HTTP/1.1\r\n", String.toList "\r\n"] =
      dispatch_reply fs_file (String.toList "/f") ::
        dispatch_reply fs_file (String.toList "/x") :: handle_client fs_file [] :=
  claim8 fs_file (String.toList "GET /f HTTP/1.1\r\n")
    [String.toList "\r\n", String.toList "GET /x HTTP/1.1\r\n", String.toList "\r\n"]
    (String.toList "GET") (String.toList "/f") (String.toList "/f") []
    (String.toList "GET /x HTTP/1.1\r\n") [String.toList "\r\n"]
    (String.toList "GET") (String.toList "/x") (String.toList "/x") [] []
    (by decide) (by decide) (by decide) (by decide)
    (by decide) (by decide) (by decide) (by decide)

/-- C9: every status code the connection loop ever emits is 200, 404 or
500, each mapped by the reason-phrase table, so the panic arm is
unreachable during connection handling; any code outside the table's
closed set maps to the panic (modelled as `none`). -/
theorem claim9 :
    (∀ (fs : Fs) (input : List (List Char)) (r : Int × List Nat),
      r ∈ handle_client fs input →
      (r.1 = 200 ∨ r.1 = 404 ∨ r.1 = 500) ∧ (status_code_to_string r.1).isSome = true) ∧
    (∀ code : Int, code ∉ known_codes → status_code_to_string code = none) := by
  constructor
  · intro fs input r hr
    have h := (handle_client_codes_aux input.length input (le_refl _)).1 fs r hr
    refine ⟨h, ?_⟩
    rcases h with h | h | h <;> rw [h] <;> decide
  · exact status_code_unknown

/-- Witness for C9 at a concrete 404 reply and at the unmapped code 418. -/
theorem claim9_witness :
    (((404 : Int) = 200 ∨ (404 : Int) = 404 ∨ (404 : Int) = 500) ∧
      (status_code_to_string 404).isSome = true) ∧
    status_code_to_string 418 = none := by
  refine ⟨?_, claim9.2 418 (by decide)⟩
  exact claim9.1 fs_empty [String.toList "GET /f HTTP/1.1\r\n", String.toList "\r\n"]
    ((404 : Int), str_bytes (String.toList "<html>404</html>")) (by decide)

/-- C10: for a fixed filesystem, the reply to a well-formed request
depends only on the decoded path — different method tokens and different
well-formed header blocks with the same decoded path get the identical
first reply, since neither the method nor the header map is consulted. -/
theorem claim10 (fs : Fs) (b1 : List Char) (ls1 : List (List Char)) (m1 r1 : List Char)
    (hs1 : Headers) (rest1 : List (List Char)) (b2 : List Char) (ls2 : List (List Char))
    (m2 r2 : List Char) (hs2 : Headers) (rest2 : List (List Char)) (path : List Char)
    (h01 : b1.length ≠ 0) (h11 : parse_request_line (rust_trim b1) = some (m1, r1))
    (h21 : decode_url r1 = some path)
    (h31 : header_scan ls1 [] = HeaderScan.done hs1 rest1)
    (h02 : b2.length ≠ 0) (h12 : parse_request_line (rust_trim b2) = some (m2, r2))
    (h22 : decode_url r2 = some path)
    (h32 : header_scan ls2 [] = HeaderScan.done hs2 rest2) :
    (handle_client fs (b1 :: ls1)).head? = (handle_client fs (b2 :: ls2)).head? := by
  rw [handle_client_step fs b1 ls1 m1 r1 path hs1 rest1 h01 h11 h21 h31]
  rw [handle_client_step fs b2 ls2 m2 r2 path hs2 rest2 h02 h12 h22 h32]
  simp

/-- Witness for C10: a GET with a header block versus a POST with none,
same path, identical first reply. -/
theorem claim10_witness :
    (handle_client fs_file [String.toList "GET /f HTTP/1.1\r\n",
      String.toList "X-Test: 1\r\n", String.toList "\r\n"]).head? =
    (handle_client fs_file [String.toList "POST /f HTTP/1.1\r\n",
      String.toList "\r\n"]).head? :=
  claim10 fs_file (String.toList "GET /f HTTP/1.1\r\n")
    [String.toList "X-Test: 1\r\n", String.toList "\r\n"]
    (String.toList "GET") (String.toList "/f")
    (insert_header [] (String.toList "X-Test") (String.toList "1")) []
    (String.toList "POST /f HTTP/1.1\r\n") [String.toList "\r\n"]
    (String.toList "POST") (String.toList "/f") [] [] (String.toList "/f")
    (by decide) (by decide) (by decide) (by decide)
    (by decide) (by decide) (by decide) (by decide)

end HttpSrv
